import Mathlib

/-!
Shallow embedding of the GameDatabase sync pipeline (src/main.py).

The script fetches a free-to-play game catalog, enriches each new record
with a fuzzily matched Steam appid and a live player count, and persists
the enriched records.  Network responses are modelled as explicit input
values (an oracle per endpoint); Python exceptions are modelled with
`Except PyErr`; Python `dict`s are modelled as insertion-ordered
association lists, matching CPython's dict semantics (in-place update of
an existing key, append of a new key, iteration in insertion order).
The fuzzy scorer (`fuzz.token_sort_ratio`, a third-party library the code
passes to `process.extractOne`) is a parameter of the model, exactly as
`extractOne` is parameterised by a scorer; `extractOne` itself is embedded
faithfully: a first-maximum scan that yields nothing on empty choices
(the Python function returns `None` there, which the caller unpacks).
The Dash presentation layer (read-only rendering) is not modelled.
-/

namespace GameDB

/-- Python exceptions that the embedded functions can raise. -/
inductive PyErr where
  | typeError
  | keyError
  | jsonError
deriving DecidableEq

/-- JSON values, as decoded by `response.json()`.  Numbers are modelled as
integers (the player-count endpoint returns integers). -/
inductive JVal where
  | jnull
  | jbool (b : Bool)
  | jint (n : Int)
  | jstr (s : String)
  | jarr (elems : List JVal)
  | jobj (fields : List (String × JVal))

/-- Lookup in a JSON object's field list (first binding wins, as decoded
objects have unique keys). -/
def jlookup : List (String × JVal) → String → Option JVal
  | [], _ => none
  | (k, v) :: rest, key => if k == key then some v else jlookup rest key

/-- Python's `str.lower()` on a single character, modelled on the ASCII
range (upstream names and titles are ASCII). -/
def pyLowerChar (c : Char) : Char :=
  if 'A' ≤ c ∧ c ≤ 'Z' then Char.ofNat (c.toNat + 32) else c

/-- Python's `str.lower()` (modelled on the ASCII range). -/
def pyLower (s : String) : String :=
  String.mk (s.data.map pyLowerChar)

/-- Substring containment, modelling Python's `needle in haystack` on
strings. -/
def strContains (hay needle : String) : Bool :=
  hay.toList.tails.any fun t => needle.toList.isPrefixOf t

/-- A record of the upstream free-to-play catalog (`game` in the loop of
src/main.py; the loop reads exactly these keys). -/
structure CatalogRecord where
  id : Nat
  title : String
  thumbnail : String
  short_description : String
  game_url : String
  genre : String
  platform : String
  publisher : String
  developer : String
  release_date : String
  freetogame_profile_url : String
deriving DecidableEq

/-- The persisted `Game` model (SQLAlchemy table `games` in src/main.py):
all catalog fields plus the two nullable enrichment columns. -/
structure Game where
  id : Nat
  title : String
  thumbnail : String
  short_description : String
  game_url : String
  genre : String
  platform : String
  publisher : String
  developer : String
  release_date : String
  freetogame_profile_url : String
  steam_appid : Option Nat
  steam_player_count : Option JVal

/-- One entry of the Steam app list (`{name, appid}`). -/
structure SteamApp where
  name : String
  appid : Nat
deriving DecidableEq

/-- The response of the Steam app-list endpoint: HTTP status plus the
decoded body (`none` = body is not JSON, so `.json()` would raise; a
JSON body of the wrong shape decodes to `some []` because the code uses
`.get('applist', {}).get('apps', [])` with defaults). -/
structure SteamListResponse where
  status_code : Nat
  body : Option (List SteamApp)

/-- The response of the free-to-play catalog endpoint: HTTP status plus
the decoded body (`none` = body is not JSON). -/
structure CatalogResponse where
  status_code : Nat
  body : Option (List CatalogRecord)

/-- Python dict lookup on an insertion-ordered association list. -/
def dictLookup : List (String × Nat) → String → Option Nat
  | [], _ => none
  | (k, v) :: rest, key => if k == key then some v else dictLookup rest key

/-- Python dict insertion: update an existing key in place, else append
(CPython preserves the position of an updated key). -/
def dictInsert : List (String × Nat) → String → Nat → List (String × Nat)
  | [], k, v => [(k, v)]
  | (k0, v0) :: rest, k, v =>
      if k0 == k then (k, v) :: rest else (k0, v0) :: dictInsert rest k v

/-- The dict comprehension of `build_steam_app_dict` (src/main.py line 44):
`{app['name'].lower(): app['appid'] for app in app_list}`. -/
def steam_dict_of (app_list : List SteamApp) : List (String × Nat) :=
  app_list.foldl (fun d app => dictInsert d (pyLower app.name) app.appid) []

/-- Model of `build_steam_app_dict` (src/main.py lines 40-47): on HTTP 200 decode
the body and build the normalized-name dict; otherwise report and return
the empty dict. -/
def build_steam_app_dict (resp : SteamListResponse) :
    Except PyErr (List (String × Nat)) :=
  if resp.status_code == 200 then
    match resp.body with
    | none => .error .jsonError
    | some app_list => .ok (steam_dict_of app_list)
  else
    .ok []

/-- First-maximum scan underlying `process.extractOne`: Python's `max`
returns the first maximal element of the generated (choice, score)
pairs, so a later choice replaces the best only on a strictly greater
score. -/
def bestOf (score : String → Nat) : String × Nat → List String → String × Nat
  | best, [] => best
  | best, c :: cs => bestOf score (if score c > best.2 then (c, score c) else best) cs

/-- Model of `process.extractOne(query, choices, scorer=...)`: `none` on empty
choices (`max` over an empty sequence raises `ValueError`, which
`extractOne` converts to `None`), else the first choice with maximal
score, paired with that score. -/
def extractOne (score : String → Nat) : List String → Option (String × Nat)
  | [] => none
  | c :: cs => some (bestOf score (c, score c) cs)

/-- Model of `match_app_id` (src/main.py lines 50-59), parameterised by the fuzzy
scorer the code passes to `extractOne`.  Exact lookup of the lower-cased
name first; otherwise the best approximate match, accepted iff its score
reaches the threshold.  With an empty dict `extractOne` yields `None`
and the tuple unpacking `match, score = ...` raises `TypeError`. -/
def match_app_id (scorer : String → String → Nat) (name : String)
    (app_dict : List (String × Nat)) (threshold : Nat := 90) :
    Except PyErr (Option Nat) :=
  let name_lower := pyLower name
  match dictLookup app_dict name_lower with
  | some v => .ok (some v)
  | none =>
    match extractOne (scorer name_lower) (app_dict.map Prod.fst) with
    | none => .error .typeError
    | some (m, score) =>
      if threshold ≤ score then
        match dictLookup app_dict m with
        | some v => .ok (some v)
        | none => .error .keyError
      else
        .ok none

/-- Model of `get_steam_player_count` (src/main.py lines 62-68).  The oracle maps
an appid to the decoded JSON body of the GET request (`none` = body not
JSON, so `.json()` raises).  Returns the result together with the number
of network requests issued.  The code checks neither the HTTP status nor
the shape of the body: `data['response']` raises on a non-object body or
a missing key, and `'player_count' in data['response']` follows Python
membership semantics on whatever value sits there. -/
def get_steam_player_count (oracle : Nat → Option JVal) (app_id : Option Nat) :
    Except PyErr (Option JVal) × Nat :=
  match app_id with
  | none => (.ok none, 0)
  | some aid =>
    match oracle aid with
    | none => (.error .jsonError, 1)
    | some data =>
      match data with
      | .jobj fields =>
        match jlookup fields "response" with
        | none => (.error .keyError, 1)
        | some (.jobj rfields) =>
          match jlookup rfields "player_count" with
          | some v => (.ok (some v), 1)
          | none => (.ok none, 1)
        | some (.jstr s) =>
          if strContains s "player_count" then (.error .typeError, 1)
          else (.ok none, 1)
        | some (.jarr elems) =>
          if elems.any (fun v => match v with | .jstr s => s == "player_count" | _ => false)
          then (.error .typeError, 1)
          else (.ok none, 1)
        | some _ => (.error .typeError, 1)
      | _ => (.error .typeError, 1)

/-- Model of `fetch_api` (src/main.py lines 71-79): on HTTP 200 decode and return
the body, otherwise report and return `None`. -/
def fetch_api (resp : CatalogResponse) : Except PyErr (Option (List CatalogRecord)) :=
  if resp.status_code == 200 then
    match resp.body with
    | none => .error .jsonError
    | some data => .ok (some data)
  else
    .ok none

/-- Python truthiness of an optional integer (`if steam_appid` on
src/main.py line 98): `None` and `0` are falsy. -/
def truthy : Option Nat → Bool
  | none => false
  | some n => n != 0

/-- The `Game(...)` constructor call of the loop (src/main.py lines
101-115). -/
def mkGameEntry (g : CatalogRecord) (appid : Option Nat) (pc : Option JVal) : Game :=
  { id := g.id
    title := g.title
    thumbnail := g.thumbnail
    short_description := g.short_description
    game_url := g.game_url
    genre := g.genre
    platform := g.platform
    publisher := g.publisher
    developer := g.developer
    release_date := g.release_date
    freetogame_profile_url := g.freetogame_profile_url
    steam_appid := appid
    steam_player_count := pc }

/-- The session state of a run: the visible store (committed rows plus
rows staged by `session.add` — SQLAlchemy's autoflush makes staged rows
visible to the existence query), the ids staged this run, and call
counters for the two enrichment functions. -/
structure SyncState where
  store : List Game
  staged : List Nat
  matchCalls : Nat
  fetchCalls : Nat

/-- The existence check `session.query(Game).filter_by(id=...).first()` turned into a
boolean existence check (src/main.py line 92). -/
def existsInStore (store : List Game) (i : Nat) : Bool :=
  store.any fun g => g.id == i

/-- One iteration of the sync loop (src/main.py lines 91-121): skip if
the id already exists, else resolve the appid, fetch the player count
when the appid is truthy, and stage the enriched record. -/
def syncStep (scorer : String → String → Nat) (app_dict : List (String × Nat))
    (oracle : Nat → Option JVal) (st : SyncState) (game : CatalogRecord) :
    Except PyErr SyncState :=
  if existsInStore st.store game.id then
    .ok st
  else
    match match_app_id scorer game.title app_dict with
    | .error e => .error e
    | .ok steam_appid =>
      let fetched :=
        if truthy steam_appid then get_steam_player_count oracle steam_appid
        else (.ok none, 0)
      match fetched.1 with
      | .error e => .error e
      | .ok steam_player_count =>
        .ok { store := st.store ++ [mkGameEntry game steam_appid steam_player_count]
              staged := st.staged ++ [game.id]
              matchCalls := st.matchCalls + 1
              fetchCalls := st.fetchCalls + fetched.2 }

/-- The full sync traversal (src/main.py lines 91-124) over a given
catalog, index and starting store. -/
def sync (scorer : String → String → Nat) (app_dict : List (String × Nat))
    (oracle : Nat → Option JVal) (catalog : List CatalogRecord)
    (store : List Game) : Except PyErr SyncState :=
  catalog.foldlM (syncStep scorer app_dict oracle) ⟨store, [], 0, 0⟩

/-- The whole run (src/main.py lines 85-124): build the Steam dict, fetch
the catalog, normalize a failed fetch to the empty list, and sync. -/
def runSync (scorer : String → String → Nat) (steamResp : SteamListResponse)
    (catalogResp : CatalogResponse) (oracle : Nat → Option JVal)
    (store : List Game) : Except PyErr SyncState :=
  match build_steam_app_dict steamResp with
  | .error e => .error e
  | .ok steam_app_dict =>
    match fetch_api catalogResp with
    | .error e => .error e
    | .ok api_dataOpt =>
      sync scorer steam_app_dict oracle (api_dataOpt.getD []) store

/-- A concrete catalog record used to exercise the model on closed
inputs. -/
def gammaRec : CatalogRecord :=
  ⟨1, "Gamma", "thumb", "desc", "url", "genre", "pc", "pub", "dev", "2020", "purl"⟩

/-- A concrete catalog record with id 42, used to exercise the dedup
path on closed inputs. -/
def rec42 : CatalogRecord :=
  ⟨42, "The Answer", "thumb", "desc", "url", "genre", "pc", "pub", "dev", "2020", "purl"⟩

/-! ### Helper lemmas about the dict model -/

theorem dictLookup_dictInsert (d : List (String × Nat)) (k : String) (v : Nat)
    (key : String) :
    dictLookup (dictInsert d k v) key =
      if k == key then some v else dictLookup d key := by
  induction d with
  | nil => simp [dictInsert, dictLookup]
  | cons p rest ih =>
    obtain ⟨k0, v0⟩ := p
    by_cases h0 : k0 = k
    · subst h0
      cases hkey : (k0 == key) <;> simp [dictInsert, dictLookup, hkey]
    · have hb : (k0 == k) = false := beq_eq_false_iff_ne.mpr h0
      by_cases hk : k0 = key
      · subst hk
        have hk2 : (k == k0) = false := beq_eq_false_iff_ne.mpr (Ne.symm h0)
        simp [dictInsert, dictLookup, hb, hk2]
      · have hb2 : (k0 == key) = false := beq_eq_false_iff_ne.mpr hk
        simp [dictInsert, dictLookup, hb, hb2, ih]

theorem dictLookup_isSome_of_mem (app_dict : List (String × Nat)) (k : String)
    (h : k ∈ app_dict.map Prod.fst) : ∃ v, dictLookup app_dict k = some v := by
  induction app_dict with
  | nil => simp at h
  | cons p rest ih =>
    by_cases hk : p.1 = k
    · exact ⟨p.2, by simp [dictLookup, ← hk]⟩
    · have hb : (p.1 == k) = false := beq_eq_false_iff_ne.mpr hk
      have hmem : k ∈ rest.map Prod.fst := by
        simp only [List.map_cons, List.mem_cons] at h
        rcases h with h1 | h1
        · exact absurd h1.symm hk
        · exact h1
      obtain ⟨v, hv⟩ := ih hmem
      exact ⟨v, by simp [dictLookup, hb, hv]⟩

theorem steam_fold_lookup (apps : List SteamApp) (key : String) : ∀ d,
    dictLookup (apps.foldl (fun d a => dictInsert d (pyLower a.name) a.appid) d) key =
      ((apps.reverse.find? fun a => pyLower a.name == key).map SteamApp.appid).or
        (dictLookup d key) := by
  induction apps with
  | nil => intro d; simp
  | cons a as ih =>
    intro d
    simp only [List.foldl_cons, List.reverse_cons, List.find?_append]
    rw [ih, dictLookup_dictInsert]
    cases hfind : as.reverse.find? (fun a => pyLower a.name == key) with
    | some b => simp [Option.or]
    | none =>
      cases hak : (pyLower a.name == key) with
      | true => simp [Option.or, List.find?, hak]
      | false => simp [Option.or, List.find?, hak]

/-! ### Helper lemmas about the first-maximum scan -/

theorem bestOf_snd_eq (score : String → Nat) (cs : List String) :
    ∀ b : String × Nat, b.2 = score b.1 →
      (bestOf score b cs).2 = score (bestOf score b cs).1 := by
  induction cs with
  | nil => intro b hb; simpa [bestOf] using hb
  | cons c cs ih =>
    intro b hb
    simp only [bestOf]
    by_cases hc : score c > b.2
    · simp only [hc, if_pos]
      exact ih _ rfl
    · simp only [hc, if_neg, ite_false]
      exact ih _ hb

theorem bestOf_fst_mem (score : String → Nat) (cs : List String) :
    ∀ b : String × Nat, (bestOf score b cs).1 = b.1 ∨ (bestOf score b cs).1 ∈ cs := by
  induction cs with
  | nil => intro b; simp [bestOf]
  | cons c cs ih =>
    intro b
    simp only [bestOf]
    by_cases hc : score c > b.2
    · simp only [hc, if_pos]
      rcases ih (c, score c) with h | h
      · exact Or.inr (by simp [h])
      · exact Or.inr (List.mem_cons_of_mem _ h)
    · simp only [hc, if_neg, ite_false]
      rcases ih b with h | h
      · exact Or.inl h
      · exact Or.inr (List.mem_cons_of_mem _ h)

theorem bestOf_le (score : String → Nat) (cs : List String) :
    ∀ b : String × Nat,
      b.2 ≤ (bestOf score b cs).2 ∧ ∀ c ∈ cs, score c ≤ (bestOf score b cs).2 := by
  induction cs with
  | nil => intro b; simp [bestOf]
  | cons c cs ih =>
    intro b
    simp only [bestOf]
    by_cases hc : score c > b.2
    · simp only [hc, if_pos]
      obtain ⟨h1, h2⟩ := ih (c, score c)
      refine ⟨le_trans (le_of_lt hc) h1, ?_⟩
      intro x hx
      rcases List.mem_cons.mp hx with h | h
      · subst h; exact h1
      · exact h2 _ h
    · simp only [hc, if_neg, ite_false]
      obtain ⟨h1, h2⟩ := ih b
      refine ⟨h1, ?_⟩
      intro x hx
      rcases List.mem_cons.mp hx with h | h
      · subst h; exact le_trans (Nat.le_of_not_lt hc) h1
      · exact h2 _ h

theorem extractOne_eq_some (score : String → Nat) (c : String) (cs : List String) :
    ∃ m s, extractOne score (c :: cs) = some (m, s) ∧ m ∈ c :: cs ∧ s = score m ∧
      score c ≤ s ∧ ∀ k ∈ cs, score k ≤ s := by
  refine ⟨(bestOf score (c, score c) cs).1, (bestOf score (c, score c) cs).2,
    by simp [extractOne], ?_, ?_, ?_, ?_⟩
  · rcases bestOf_fst_mem score cs (c, score c) with h | h
    · simp [h]
    · exact List.mem_cons_of_mem _ h
  · exact bestOf_snd_eq score cs (c, score c) rfl
  · exact (bestOf_le score cs (c, score c)).1
  · exact (bestOf_le score cs (c, score c)).2

theorem match_app_id_no_exact (scorer : String → String → Nat) (name : String)
    (app_dict : List (String × Nat)) (threshold : Nat)
    (hnoexact : dictLookup app_dict (pyLower name) = none)
    (m : String) (s : Nat)
    (hext : extractOne (scorer (pyLower name)) (app_dict.map Prod.fst) = some (m, s)) :
    match_app_id scorer name app_dict threshold =
      if threshold ≤ s then
        (match dictLookup app_dict m with
         | some v => .ok (some v)
         | none => .error .keyError)
      else .ok none := by
  simp only [match_app_id]
  rw [hnoexact, hext]

/-! ### Helper lemmas about the sync loop -/

theorem syncStep_of_exists (f : String → String → Nat) (d : List (String × Nat))
    (o : Nat → Option JVal) (st : SyncState) (g : CatalogRecord)
    (h : existsInStore st.store g.id = true) :
    syncStep f d o st g = .ok st := by
  simp [syncStep, h]

theorem get_steam_player_count_one_request (o : Nat → Option JVal) (aid : Nat) :
    (get_steam_player_count o (some aid)).2 = 1 := by
  simp only [get_steam_player_count]
  repeat first | rfl | split

theorem syncStep_ok_cases (f : String → String → Nat) (d : List (String × Nat))
    (o : Nat → Option JVal) (st : SyncState) (g : CatalogRecord) (st2 : SyncState)
    (h : syncStep f d o st g = .ok st2) :
    (existsInStore st.store g.id = true ∧ st2 = st) ∨
    (existsInStore st.store g.id = false ∧ ∃ appid pc n,
      st2.store = st.store ++ [mkGameEntry g appid pc] ∧
      st2.staged = st.staged ++ [g.id] ∧
      st2.matchCalls = st.matchCalls + 1 ∧
      st2.fetchCalls = st.fetchCalls + n ∧
      (truthy appid = true → n = 1) ∧
      (truthy appid = false → n = 0 ∧ pc = none)) := by
  by_cases hex : existsInStore st.store g.id = true
  · left
    rw [syncStep_of_exists f d o st g hex] at h
    cases h
    exact ⟨hex, rfl⟩
  · right
    have hex2 : existsInStore st.store g.id = false := by simpa using hex
    refine ⟨hex2, ?_⟩
    simp only [syncStep, hex2, Bool.false_eq_true, if_false] at h
    split at h
    · cases h
    · rename_i appid hm
      by_cases ht : truthy appid = true
      · rw [if_pos ht] at h
        split at h
        · cases h
        · rename_i pc hpc
          cases h
          refine ⟨appid, pc, (get_steam_player_count o appid).2, rfl, rfl, rfl, rfl,
            fun _ => ?_, fun hf => absurd ht (by simp [hf])⟩
          cases appid with
          | none => simp [truthy] at ht
          | some aid => exact get_steam_player_count_one_request o aid
      · rw [if_neg ht] at h
        cases h
        exact ⟨appid, none, 0, rfl, rfl, rfl, rfl, fun htr => absurd htr ht,
          fun _ => ⟨rfl, rfl⟩⟩

theorem sync_fold_mono (f : String → String → Nat) (d : List (String × Nat))
    (o : Nat → Option JVal) (catalog : List CatalogRecord) :
    ∀ st st2, List.foldlM (syncStep f d o) st catalog = .ok st2 →
      ∀ i, existsInStore st.store i = true → existsInStore st2.store i = true := by
  induction catalog with
  | nil =>
    intro st st2 h i hi
    cases h
    exact hi
  | cons g gs ih =>
    intro st st2 h i hi
    rw [List.foldlM_cons] at h
    cases hstep : syncStep f d o st g with
    | error e => rw [hstep] at h; cases h
    | ok st1 =>
      rw [hstep] at h
      have h2 : List.foldlM (syncStep f d o) st1 gs = .ok st2 := h
      have hi1 : existsInStore st1.store i = true := by
        rcases syncStep_ok_cases f d o st g st1 hstep with ⟨_, rfl⟩ |
          ⟨_, appid, pc, n, hst, _⟩
        · exact hi
        · rw [hst]
          simp only [existsInStore, List.any_append] at hi ⊢
          simp [hi]
      exact ih st1 st2 h2 i hi1

theorem sync_fold_ids (f : String → String → Nat) (d : List (String × Nat))
    (o : Nat → Option JVal) (catalog : List CatalogRecord) :
    ∀ st st2, List.foldlM (syncStep f d o) st catalog = .ok st2 →
      ∀ g ∈ catalog, existsInStore st2.store g.id = true := by
  induction catalog with
  | nil => intro st st2 h g hg; simp at hg
  | cons g0 gs ih =>
    intro st st2 h g hg
    rw [List.foldlM_cons] at h
    cases hstep : syncStep f d o st g0 with
    | error e => rw [hstep] at h; cases h
    | ok st1 =>
      rw [hstep] at h
      have h2 : List.foldlM (syncStep f d o) st1 gs = .ok st2 := h
      rcases List.mem_cons.mp hg with rfl | hmem
      · have h1 : existsInStore st1.store g.id = true := by
          rcases syncStep_ok_cases f d o st g st1 hstep with ⟨hex, rfl⟩ |
            ⟨_, appid, pc, n, hst, _⟩
          · exact hex
          · rw [hst]
            simp [existsInStore, List.any_append, mkGameEntry]
        exact sync_fold_mono f d o gs st1 st2 h2 g.id h1
      · exact ih st1 st2 h2 g hmem

theorem sync_fold_noop (f : String → String → Nat) (d : List (String × Nat))
    (o : Nat → Option JVal) (catalog : List CatalogRecord) :
    ∀ st, (∀ g ∈ catalog, existsInStore st.store g.id = true) →
      List.foldlM (syncStep f d o) st catalog = .ok st := by
  induction catalog with
  | nil => intro st _; rfl
  | cons g gs ih =>
    intro st hall
    rw [List.foldlM_cons, syncStep_of_exists f d o st g (hall g (List.mem_cons_self g gs))]
    exact ih st (fun g2 hg2 => hall g2 (List.mem_cons_of_mem _ hg2))

theorem sync_fold_new (f : String → String → Nat) (d : List (String × Nat))
    (o : Nat → Option JVal) (catalog : List CatalogRecord) :
    ∀ st st2, List.foldlM (syncStep f d o) st catalog = .ok st2 →
      ∃ newRecs : List Game,
        st2.store = st.store ++ newRecs ∧
        (∀ g ∈ newRecs, truthy g.steam_appid = false → g.steam_player_count = none) ∧
        st2.fetchCalls =
          st.fetchCalls + (newRecs.filter fun g => truthy g.steam_appid).length := by
  induction catalog with
  | nil =>
    intro st st2 h
    cases h
    exact ⟨[], by simp, by simp, by simp⟩
  | cons g gs ih =>
    intro st st2 h
    rw [List.foldlM_cons] at h
    cases hstep : syncStep f d o st g with
    | error e => rw [hstep] at h; cases h
    | ok st1 =>
      rw [hstep] at h
      have h2 : List.foldlM (syncStep f d o) st1 gs = .ok st2 := h
      obtain ⟨newRecs, hstore, hprop, hfc⟩ := ih st1 st2 h2
      rcases syncStep_ok_cases f d o st g st1 hstep with ⟨hex, rfl⟩ |
        ⟨hex, appid, pc, n, hst, hstg, hmc, hfc1, htv, hfv⟩
      · exact ⟨newRecs, hstore, hprop, hfc⟩
      · refine ⟨mkGameEntry g appid pc :: newRecs, ?_, ?_, ?_⟩
        · rw [hstore, hst, List.append_assoc]
          rfl
        · intro x hx hfx
          rcases List.mem_cons.mp hx with rfl | hx2
          · exact (hfv hfx).2
          · exact hprop x hx2 hfx
        · rw [hfc, hfc1]
          cases ht : truthy appid with
          | true =>
            have hn := htv ht
            have hkeep : truthy (mkGameEntry g appid pc).steam_appid = true := ht
            simp only [List.filter_cons, hkeep, if_pos, List.length_cons]
            omega
          | false =>
            have hn := (hfv ht).1
            have hdrop : truthy (mkGameEntry g appid pc).steam_appid = false := ht
            simp only [List.filter_cons, hdrop, Bool.false_eq_true, if_false]
            omega

/-! ### The claims -/

/-- C1: running `sync` twice over an unchanged catalog produces zero new
staged records on the second run: if the first run succeeds and persists
its enriched store, the second run (with any scorer, index and
player-count responses) finds every catalog id by the existence check,
stages nothing, performs no resolution and no player-count fetch, and
leaves the store unchanged. -/
theorem sync_idempotent (f1 f2 : String → String → Nat)
    (d1 d2 : List (String × Nat)) (o1 o2 : Nat → Option JVal)
    (catalog : List CatalogRecord) (store : List Game) (st1 : SyncState)
    (h : sync f1 d1 o1 catalog store = .ok st1) :
    sync f2 d2 o2 catalog st1.store = .ok ⟨st1.store, [], 0, 0⟩ := by
  have hids := sync_fold_ids f1 d1 o1 catalog ⟨store, [], 0, 0⟩ st1 h
  exact sync_fold_noop f2 d2 o2 catalog ⟨st1.store, [], 0, 0⟩ (fun g hg => hids g hg)

theorem sync_idempotent_witness :
    sync (fun _ _ => 40) [] (fun _ => none) [gammaRec]
      [mkGameEntry gammaRec (some 11) none] =
      .ok ⟨[mkGameEntry gammaRec (some 11) none], [], 0, 0⟩ :=
  sync_idempotent (fun _ _ => 95) (fun _ _ => 40) [("alpha", 11)] []
    (fun _ => some (.jobj [("response", .jobj [])])) (fun _ => none) [gammaRec] []
    ⟨[mkGameEntry gammaRec (some 11) none], [1], 1, 1⟩ rfl

/-- C6: a catalog record whose id is already in the store is skipped
entirely by the loop body: the state (store, staged list, and both call
counters, so neither `match_app_id` nor `get_steam_player_count` is
invoked) is returned unchanged. -/
theorem syncStep_skips_existing (f : String → String → Nat)
    (d : List (String × Nat)) (o : Nat → Option JVal) (store : List Game)
    (staged : List Nat) (mc fc : Nat) (g : CatalogRecord)
    (h : existsInStore store g.id = true) :
    syncStep f d o ⟨store, staged, mc, fc⟩ g = .ok ⟨store, staged, mc, fc⟩ :=
  syncStep_of_exists f d o ⟨store, staged, mc, fc⟩ g h

theorem syncStep_skips_existing_witness :
    syncStep (fun _ _ => 100) [("the answer", 7)] (fun _ => none)
      ⟨[mkGameEntry rec42 none none], [], 0, 0⟩ rec42 =
      .ok ⟨[mkGameEntry rec42 none none], [], 0, 0⟩ :=
  syncStep_skips_existing (fun _ _ => 100) [("the answer", 7)] (fun _ => none)
    [mkGameEntry rec42 none none] [] 0 0 rec42 (by decide)

/-- C7: `get_steam_player_count` applied to an absent appid returns
absent and issues zero network requests, whatever the endpoint would
have answered. -/
theorem get_steam_player_count_absent (oracle : Nat → Option JVal) :
    get_steam_player_count oracle none = (.ok none, 0) := rfl

/-- C2: the claim fails on the code.  With an empty index,
`process.extractOne` returns `None` and the tuple unpacking in
`match_app_id` raises `TypeError` instead of returning absent; hence
when the storefront-index fetch fails (HTTP 500, so the index is empty)
and the catalog holds any record not yet stored, the whole run aborts
with `TypeError` rather than completing with absent storefront ids. -/
theorem match_app_id_empty_index_raises :
    match_app_id (fun _ _ => 40) "Gamma" [] = .error .typeError ∧
    runSync (fun _ _ => 40) ⟨500, none⟩ ⟨200, some [gammaRec]⟩ (fun _ => none) [] =
      .error .typeError :=
  ⟨rfl, rfl⟩

/-- C3: the claim fails on the code.  A malformed (non-JSON) response
body is not downgraded to absent: `response.json()` raises, so
`get_steam_player_count` propagates an exception instead of returning
`None`, and that exception aborts the sync traversal — shown here on a
concrete one-record catalog whose record resolves to appid 570 while
the player-count endpoint answers with a non-JSON body. -/
theorem get_steam_player_count_malformed_raises :
    get_steam_player_count (fun _ => none) (some 570) = (.error .jsonError, 1) ∧
    sync (fun _ _ => 95) [("gamma", 570)] (fun _ => none) [gammaRec] [] =
      .error .jsonError :=
  ⟨rfl, rfl⟩

/-- C3 amended: `get_steam_player_count` returns absent exactly when the
body parses as a JSON object whose `response` object lacks
`player_count` (the HTTP status is never consulted); it returns the
field's value when present; that per-record absence does not abort the
sync traversal (the loop stages the record with an absent count and
proceeds to the remaining records); but on a non-JSON body or a missing
`response` key the function raises instead of returning absent, and the
exception propagates and aborts the whole sync traversal. -/
theorem get_steam_player_count_failure_modes (oracle : Nat → Option JVal)
    (aid : Nat) :
    (∀ fields rfields, oracle aid = some (.jobj fields) →
       jlookup fields "response" = some (.jobj rfields) →
       jlookup rfields "player_count" = none →
       get_steam_player_count oracle (some aid) = (.ok none, 1)) ∧
    (∀ fields rfields v, oracle aid = some (.jobj fields) →
       jlookup fields "response" = some (.jobj rfields) →
       jlookup rfields "player_count" = some v →
       get_steam_player_count oracle (some aid) = (.ok (some v), 1)) ∧
    (oracle aid = none →
       get_steam_player_count oracle (some aid) = (.error .jsonError, 1)) ∧
    (∀ fields, oracle aid = some (.jobj fields) →
       jlookup fields "response" = none →
       get_steam_player_count oracle (some aid) = (.error .keyError, 1)) ∧
    (∀ f d st g gs, existsInStore st.store g.id = false →
       match_app_id f g.title d = .ok (some aid) → aid ≠ 0 →
       get_steam_player_count oracle (some aid) = (.ok none, 1) →
       List.foldlM (syncStep f d oracle) st (g :: gs) =
         List.foldlM (syncStep f d oracle)
           ⟨st.store ++ [mkGameEntry g (some aid) none], st.staged ++ [g.id],
            st.matchCalls + 1, st.fetchCalls + 1⟩ gs) ∧
    (∀ f d st g gs e, existsInStore st.store g.id = false →
       match_app_id f g.title d = .ok (some aid) → aid ≠ 0 →
       (get_steam_player_count oracle (some aid)).1 = .error e →
       List.foldlM (syncStep f d oracle) st (g :: gs) = .error e) := by
  refine ⟨?_, ?_, ?_, ?_, ?_, ?_⟩
  · intro fields rfields h1 h2 h3
    simp [get_steam_player_count, h1, h2, h3]
  · intro fields rfields v h1 h2 h3
    simp [get_steam_player_count, h1, h2, h3]
  · intro h1
    simp [get_steam_player_count, h1]
  · intro fields h1 h2
    simp [get_steam_player_count, h1, h2]
  · intro f d st g gs hex hm haid hfetch
    have ht : truthy (some aid) = true := by simp [truthy, haid]
    rw [List.foldlM_cons]
    have hstep : syncStep f d oracle st g =
        .ok ⟨st.store ++ [mkGameEntry g (some aid) none], st.staged ++ [g.id],
          st.matchCalls + 1, st.fetchCalls + 1⟩ := by
      simp [syncStep, hex, hm, ht, hfetch]
    rw [hstep]
    rfl
  · intro f d st g gs e hex hm haid herr
    have ht : truthy (some aid) = true := by simp [truthy, haid]
    rw [List.foldlM_cons]
    have hstep : syncStep f d oracle st g = .error e := by
      simp [syncStep, hex, hm, ht, herr]
    rw [hstep]
    rfl

theorem get_steam_player_count_failure_modes_witness :
    get_steam_player_count (fun _ => some (.jobj [("response", .jobj [])]))
      (some 570) = (.ok none, 1) ∧
    List.foldlM (syncStep (fun _ _ => 95) [("gamma", 570)] (fun _ => none))
      ⟨[], [], 0, 0⟩ [gammaRec] = .error .jsonError :=
  ⟨(get_steam_player_count_failure_modes
      (fun _ => some (.jobj [("response", .jobj [])])) 570).1
      [("response", .jobj [])] [] rfl rfl rfl,
   (get_steam_player_count_failure_modes (fun _ => none) 570).2.2.2.2.2
      (fun _ _ => 95) [("gamma", 570)] ⟨[], [], 0, 0⟩ gammaRec [] .jsonError
      rfl rfl (by decide) rfl⟩

/-- C4: a title whose lower-cased form is literally a key of the index
resolves to that key's id, for every threshold and every scorer (so
regardless of any other key's approximate score): the exact lookup
short-circuits the approximate scan. -/
theorem match_app_id_exact (scorer : String → String → Nat) (name : String)
    (app_dict : List (String × Nat)) (threshold : Nat) (v : Nat)
    (h : dictLookup app_dict (pyLower name) = some v) :
    match_app_id scorer name app_dict threshold = .ok (some v) := by
  simp only [match_app_id]
  rw [h]

theorem match_app_id_exact_witness :
    match_app_id (fun _ _ => 100) "Path of Exile"
      [("other game", 1), ("path of exile", 238960)] 90 = .ok (some 238960) :=
  match_app_id_exact (fun _ _ => 100) "Path of Exile"
    [("other game", 1), ("path of exile", 238960)] 90 238960 rfl

/-- C5: with no exact key match and a non-empty index, at the default
threshold 90 the resolver returns the id of a key scoring exactly 90
when 90 is the best score, and returns absent when the best score is
89. -/
theorem match_app_id_threshold_boundary (scorer : String → String → Nat)
    (name : String) (app_dict : List (String × Nat)) (hne : app_dict ≠ [])
    (hnoexact : dictLookup app_dict (pyLower name) = none) :
    ((∀ k ∈ app_dict.map Prod.fst, scorer (pyLower name) k ≤ 90) →
     (∃ k ∈ app_dict.map Prod.fst, scorer (pyLower name) k = 90) →
     ∃ m v, m ∈ app_dict.map Prod.fst ∧ scorer (pyLower name) m = 90 ∧
       dictLookup app_dict m = some v ∧
       match_app_id scorer name app_dict 90 = .ok (some v)) ∧
    ((∀ k ∈ app_dict.map Prod.fst, scorer (pyLower name) k ≤ 89) →
     (∃ k ∈ app_dict.map Prod.fst, scorer (pyLower name) k = 89) →
     match_app_id scorer name app_dict 90 = .ok none) := by
  obtain ⟨p, rest, rfl⟩ : ∃ p rest, app_dict = p :: rest := by
    cases app_dict with
    | nil => exact absurd rfl hne
    | cons p rest => exact ⟨p, rest, rfl⟩
  obtain ⟨m, s, hext, hmem, hs, hcle, hcs⟩ :=
    extractOne_eq_some (scorer (pyLower name)) p.1 (rest.map Prod.fst)
  have hall : ∀ k ∈ p.1 :: rest.map Prod.fst, scorer (pyLower name) k ≤ s := by
    intro k hk
    rcases List.mem_cons.mp hk with rfl | hk2
    · exact hcle
    · exact hcs k hk2
  constructor
  · intro hub hex
    obtain ⟨k, hkmem, hk90⟩ := hex
    have hs90 : s = 90 := by
      have h1 : s ≤ 90 := by rw [hs]; exact hub m (by simpa using hmem)
      have h2 : 90 ≤ s := by rw [← hk90]; exact hall k (by simpa using hkmem)
      omega
    obtain ⟨v, hv⟩ := dictLookup_isSome_of_mem (p :: rest) m (by simpa using hmem)
    refine ⟨m, v, by simpa using hmem, by rw [← hs]; exact hs90, hv, ?_⟩
    rw [match_app_id_no_exact scorer name (p :: rest) 90 hnoexact m s
      (by simpa using hext)]
    rw [hs90]
    simp [hv]
  · intro hub hex
    have hle : s ≤ 89 := by rw [hs]; exact hub m (by simpa using hmem)
    rw [match_app_id_no_exact scorer name (p :: rest) 90 hnoexact m s
      (by simpa using hext)]
    have hlt : ¬ (90 ≤ s) := by omega
    simp [hlt]

theorem match_app_id_threshold_boundary_witness :
    ∃ m v, m ∈ ([("alpha", 11), ("beta", 22)] : List (String × Nat)).map Prod.fst ∧
      (if m == "alpha" then 90 else 40) = 90 ∧
      dictLookup [("alpha", 11), ("beta", 22)] m = some v ∧
      match_app_id (fun _ k => if k == "alpha" then 90 else 40) "Gamma"
        [("alpha", 11), ("beta", 22)] 90 = .ok (some v) :=
  (match_app_id_threshold_boundary (fun _ k => if k == "alpha" then 90 else 40)
    "Gamma" [("alpha", 11), ("beta", 22)] (by decide) rfl).1 (by decide) (by decide)

/-- C8: when the catalog fetch gets a non-success response, `fetch_api`
yields no data (normalized to the empty catalog), so the sync loop body
never runs: no resolution, no player-count fetch, nothing staged, and
the previously persisted store is returned unchanged. -/
theorem catalog_fetch_failure_noop (scorer : String → String → Nat)
    (steamResp : SteamListResponse) (catalogResp : CatalogResponse)
    (oracle : Nat → Option JVal) (store : List Game) (d : List (String × Nat))
    (h200 : catalogResp.status_code ≠ 200)
    (hdict : build_steam_app_dict steamResp = .ok d) :
    fetch_api catalogResp = .ok none ∧
    runSync scorer steamResp catalogResp oracle store = .ok ⟨store, [], 0, 0⟩ := by
  have hb : (catalogResp.status_code == 200) = false := beq_eq_false_iff_ne.mpr h200
  have hfetch : fetch_api catalogResp = .ok none := by
    simp [fetch_api, hb]
  refine ⟨hfetch, ?_⟩
  simp only [runSync, hdict, hfetch]
  rfl

theorem catalog_fetch_failure_noop_witness :
    fetch_api ⟨500, none⟩ = .ok none ∧
    runSync (fun _ _ => 40) ⟨200, some []⟩ ⟨500, none⟩ (fun _ => none)
      [mkGameEntry gammaRec none none] =
      .ok ⟨[mkGameEntry gammaRec none none], [], 0, 0⟩ :=
  catalog_fetch_failure_noop (fun _ _ => 40) ⟨200, some []⟩ ⟨500, none⟩
    (fun _ => none) [mkGameEntry gammaRec none none] [] (by decide) rfl

/-- C9: the index built from a successfully fetched app list maps each
normalized (lower-cased) name to the appid of the last entry in list
order bearing that name — a later duplicate overwrites an earlier one —
and names no entry bears are absent. -/
theorem build_steam_app_dict_last_wins (apps : List SteamApp) (key : String) :
    build_steam_app_dict ⟨200, some apps⟩ = .ok (steam_dict_of apps) ∧
    dictLookup (steam_dict_of apps) key =
      ((apps.reverse.find? fun a => pyLower a.name == key).map SteamApp.appid) := by
  refine ⟨rfl, ?_⟩
  have h := steam_fold_lookup apps key []
  simpa [steam_dict_of, dictLookup] using h

/-- C10: every record the sync loop stages has the invariant that a
falsy resolved appid (absent or 0) comes with an absent stored player
count, and the run's player-count requests are exactly one per staged
record with a truthy appid (so no fetch happens for a falsy one);
consequently a staged record with a present player count has a present,
non-zero appid. -/
theorem sync_player_count_invariant (f : String → String → Nat)
    (d : List (String × Nat)) (o : Nat → Option JVal)
    (catalog : List CatalogRecord) (store : List Game) (st : SyncState)
    (h : sync f d o catalog store = .ok st) :
    ∃ newRecs : List Game,
      st.store = store ++ newRecs ∧
      (∀ g ∈ newRecs, truthy g.steam_appid = false → g.steam_player_count = none) ∧
      (∀ g ∈ newRecs, g.steam_player_count.isSome = true →
        ∃ n, g.steam_appid = some n ∧ n ≠ 0) ∧
      st.fetchCalls = (newRecs.filter fun g => truthy g.steam_appid).length := by
  obtain ⟨newRecs, hstore, hprop, hfc⟩ :=
    sync_fold_new f d o catalog ⟨store, [], 0, 0⟩ st h
  refine ⟨newRecs, hstore, hprop, ?_, by simpa using hfc⟩
  intro g hg hsome
  cases ha : g.steam_appid with
  | none =>
    have hnone := hprop g hg (by simp [truthy, ha])
    rw [hnone] at hsome
    simp at hsome
  | some n =>
    by_cases hn : n = 0
    · subst hn
      have hnone := hprop g hg (by simp [truthy, ha])
      rw [hnone] at hsome
      simp at hsome
    · exact ⟨n, rfl, hn⟩

theorem sync_player_count_invariant_witness :
    ∃ newRecs : List Game,
      (⟨[mkGameEntry gammaRec (some 11) (some (.jint 7))], [1], 1, 1⟩ :
        SyncState).store = [] ++ newRecs ∧
      (∀ g ∈ newRecs, truthy g.steam_appid = false → g.steam_player_count = none) ∧
      (∀ g ∈ newRecs, g.steam_player_count.isSome = true →
        ∃ n, g.steam_appid = some n ∧ n ≠ 0) ∧
      (⟨[mkGameEntry gammaRec (some 11) (some (.jint 7))], [1], 1, 1⟩ :
        SyncState).fetchCalls =
        (newRecs.filter fun g => truthy g.steam_appid).length :=
  sync_player_count_invariant (fun _ _ => 95) [("alpha", 11)]
    (fun _ => some (.jobj [("response", .jobj [("player_count", .jint 7)])]))
    [gammaRec] [] _ rfl

end GameDB
